import Mathlib

/-!
Verification of the spiderfy layout engine of `src/src/App.tsx`
(mapbox-spiderfy-clusters).

The original logic of the repository is two pure offset generators and a
threshold-based selection:

* `calculateSpiderfiedPositionsCircle` (App.tsx lines 203-217): places
  `count` points on a circle of radius 80 at angles `theta * i` with
  `theta = 2 * pi / count`.
* `calculateSpiderfiedPositions` (App.tsx lines 219-237): places points on
  an expanding spiral, with mutable loop state `legLength` (starting 25)
  and `angle` (starting 0).
* `spiderFyCluster` (App.tsx lines 251-256): chooses the spiral layout when
  the leaf count exceeds 10, the circular layout otherwise.

JavaScript numbers are embedded as real numbers; the loop counter and
counts are embedded as integers (`count` is an arbitrary JS number at the
type level, but every caller passes an array length; embedding it as `ℤ`
keeps the defensive `count < 1` cases of the spec statable).  The
`for (let i = 0; i < count; i += 1)` loops run `count.toNat` iterations.
-/

namespace Spiderfy

/-- An offset is a pair `(dx, dy)` of pixel coordinates relative to the
anchor, as pushed by `points.push([x, y])` in the source. -/
abbrev Offset := ℝ × ℝ

/-- The constant `leavesOffset = [0, 0]` shared by both layout functions. -/
def leavesOffset : Offset := (0, 0)

/-- One point of the circular layout: iteration `i` of the loop in
`calculateSpiderfiedPositionsCircle` computes `angle = theta * i` with
`theta = (2 * Math.PI) / count` and pushes
`[80 * cos(angle) + leavesOffset[0], 80 * sin(angle) + leavesOffset[1]]`. -/
noncomputable def circlePoint (count : ℤ) (i : ℕ) : Offset :=
  let leavesSeparation : ℝ := 80
  let theta : ℝ := 2 * Real.pi / (count : ℝ)
  let angle : ℝ := theta * (i : ℝ)
  (leavesSeparation * Real.cos angle + leavesOffset.1,
    leavesSeparation * Real.sin angle + leavesOffset.2)

/-- Embedding of `calculateSpiderfiedPositionsCircle` (App.tsx 203-217):
the loop body of iteration `i` only reads `i` and the loop-invariant
`theta`, so the loop is a map over the iteration indices `0 .. count-1`. -/
noncomputable def calculateSpiderfiedPositionsCircle (count : ℤ) : List Offset :=
  (List.range count.toNat).map (circlePoint count)

/-- One iteration of the loop body of `calculateSpiderfiedPositions`
(App.tsx 228-235): given the loop index `i` and the mutable state
`(legLength, angle)` at loop entry, first `angle += 40 / legLength + i * 0.0005`,
then the point `[legLength * cos(angle) + 0, legLength * sin(angle) + 0]`
is pushed, then `legLength += (Math.PI * 2 * 5) / angle`.  Returns the
pushed point together with the updated `(legLength, angle)`. -/
noncomputable def spiralLoopBody (i : ℕ) (legLength angle : ℝ) :
    Offset × ℝ × ℝ :=
  let leavesSeparation : ℝ := 40
  let legLengthFactor : ℝ := 5
  let angle2 : ℝ := angle + leavesSeparation / legLength + (i : ℝ) * 0.0005
  let x : ℝ := legLength * Real.cos angle2 + leavesOffset.1
  let y : ℝ := legLength * Real.sin angle2 + leavesOffset.2
  ((x, y), legLength + Real.pi * 2 * legLengthFactor / angle2, angle2)

/-- The spiral loop run for `fuel` remaining iterations, starting at loop
index `i` with mutable state `(legLength, angle)`. -/
noncomputable def spiralAux : ℕ → ℕ → ℝ → ℝ → List Offset
  | _, 0, _, _ => []
  | i, fuel + 1, legLength, angle =>
    (spiralLoopBody i legLength angle).1 ::
      spiralAux (i + 1) fuel (spiralLoopBody i legLength angle).2.1
        (spiralLoopBody i legLength angle).2.2

/-- Embedding of `calculateSpiderfiedPositions` (App.tsx 219-237):
`legLength` starts at `legLengthStart = 25`, `angle` starts at `0`, and the
loop runs for `i = 0 .. count-1`. -/
noncomputable def calculateSpiderfiedPositions (count : ℤ) : List Offset :=
  spiralAux 0 count.toNat 25 0

/-- The mutable state `(legLength, angle)` of the spiral loop at entry of
iteration `i`; it does not depend on `count`. -/
noncomputable def spiralState : ℕ → ℝ × ℝ
  | 0 => (25, 0)
  | i + 1 => (spiralLoopBody i (spiralState i).1 (spiralState i).2).2

/-- The point pushed by iteration `i` of the spiral loop. -/
noncomputable def spiralPoint (i : ℕ) : Offset :=
  (spiralLoopBody i (spiralState i).1 (spiralState i).2).1

/-- Embedding of the layout selection in `spiderFyCluster` (App.tsx
251-256): `features.length > 10 ? calculateSpiderfiedPositions(features.length)
: calculateSpiderfiedPositionsCircle(features.length)`.  The leaf count is
an array length, hence a natural number; the handler only runs this when
`features.length > 0`. -/
noncomputable def spiderFyClusterPositions (leafCount : ℕ) : List Offset :=
  if 10 < leafCount then calculateSpiderfiedPositions (leafCount : ℤ)
  else calculateSpiderfiedPositionsCircle (leafCount : ℤ)

/-- Euclidean distance of an offset from the anchor `(0, 0)`. -/
noncomputable def distToAnchor (p : Offset) : ℝ :=
  Real.sqrt (p.1 ^ 2 + p.2 ^ 2)

/-- Euclidean distance between two offsets. -/
noncomputable def distBetween (p q : Offset) : ℝ :=
  Real.sqrt ((p.1 - q.1) ^ 2 + (p.2 - q.2) ^ 2)

/-! ### Basic lemmas about the spiral loop -/

lemma spiralAux_state (fuel : ℕ) : ∀ i : ℕ,
    spiralAux i fuel (spiralState i).1 (spiralState i).2 =
      (List.range fuel).map (fun j => spiralPoint (i + j)) := by
  induction fuel with
  | zero => intro i; simp [spiralAux]
  | succ n ih =>
    intro i
    have hstate : (spiralLoopBody i (spiralState i).1 (spiralState i).2).2 =
        spiralState (i + 1) := rfl
    have htail : List.map (fun j => spiralPoint (i + 1 + j)) (List.range n) =
        List.map (fun j => spiralPoint (i + (j + 1))) (List.range n) := by
      apply List.map_congr_left
      intro j _
      have hj : i + 1 + j = i + (j + 1) := by omega
      rw [hj]
    rw [spiralAux, hstate, ih (i + 1), htail, List.range_succ_eq_map]
    simp only [List.map_cons, List.map_map, Function.comp, Nat.succ_eq_add_one,
      Nat.add_zero]
    rfl

lemma spiral_eq_map (count : ℤ) :
    calculateSpiderfiedPositions count =
      (List.range count.toNat).map spiralPoint := by
  have h0 : spiralState 0 = (25, 0) := rfl
  have := spiralAux_state count.toNat 0
  rw [h0] at this
  simpa [calculateSpiderfiedPositions] using this

lemma spiralState_succ (i : ℕ) :
    spiralState (i + 1) =
      ((spiralState i).1 + Real.pi * 2 * 5 /
          ((spiralState i).2 + 40 / (spiralState i).1 + (i : ℝ) * 0.0005),
        (spiralState i).2 + 40 / (spiralState i).1 + (i : ℝ) * 0.0005) := rfl

lemma spiralPoint_eq (i : ℕ) :
    spiralPoint i =
      ((spiralState i).1 * Real.cos ((spiralState (i + 1)).2) + leavesOffset.1,
        (spiralState i).1 * Real.sin ((spiralState (i + 1)).2) + leavesOffset.2) :=
  rfl

lemma circlePoint_eq (count : ℤ) (i : ℕ) :
    circlePoint count i =
      (80 * Real.cos (2 * Real.pi / (count : ℝ) * (i : ℝ)) + leavesOffset.1,
        80 * Real.sin (2 * Real.pi / (count : ℝ) * (i : ℝ)) + leavesOffset.2) :=
  rfl

lemma spiralState_pos (i : ℕ) :
    0 < (spiralState i).1 ∧ 0 ≤ (spiralState i).2 := by
  induction i with
  | zero => exact ⟨by norm_num [spiralState], le_of_eq rfl⟩
  | succ n ih =>
    obtain ⟨hL, ha⟩ := ih
    have ha2 : 0 < (spiralState n).2 + 40 / (spiralState n).1 + (n : ℝ) * 0.0005 := by
      have h1 : 0 < (40 : ℝ) / (spiralState n).1 := by positivity
      have h2 : 0 ≤ (n : ℝ) * 0.0005 := by positivity
      linarith
    rw [spiralState_succ]
    refine ⟨?_, le_of_lt ha2⟩
    have hgrow : 0 < Real.pi * 2 * 5 /
        ((spiralState n).2 + 40 / (spiralState n).1 + (n : ℝ) * 0.0005) := by
      have hpi : 0 < Real.pi := Real.pi_pos
      positivity
    exact add_pos hL hgrow

lemma spiralState_snd_succ_pos (i : ℕ) : 0 < (spiralState (i + 1)).2 := by
  obtain ⟨hL, ha⟩ := spiralState_pos i
  rw [spiralState_succ]
  have h1 : 0 < (40 : ℝ) / (spiralState i).1 := by positivity
  have h2 : 0 ≤ (i : ℝ) * 0.0005 := by positivity
  simp only
  linarith

lemma spiralState_fst_lt (i : ℕ) :
    (spiralState i).1 < (spiralState (i + 1)).1 := by
  have ha2 : 0 < (spiralState (i + 1)).2 := spiralState_snd_succ_pos i
  rw [spiralState_succ] at ha2 ⊢
  simp only at ha2 ⊢
  have hpi : 0 < Real.pi := Real.pi_pos
  have hgrow : 0 < Real.pi * 2 * 5 /
      ((spiralState i).2 + 40 / (spiralState i).1 + (i : ℝ) * 0.0005) := by
    positivity
  linarith

lemma distToAnchor_polar (L θ : ℝ) (hL : 0 ≤ L) :
    distToAnchor (L * Real.cos θ + leavesOffset.1,
      L * Real.sin θ + leavesOffset.2) = L := by
  have hs : (L * Real.cos θ + leavesOffset.1) ^ 2 +
      (L * Real.sin θ + leavesOffset.2) ^ 2 = L ^ 2 := by
    have hid := Real.cos_sq_add_sin_sq θ
    simp only [leavesOffset, add_zero]
    nlinarith [hid]
  rw [distToAnchor, hs, Real.sqrt_sq hL]

lemma distToAnchor_spiralPoint (i : ℕ) :
    distToAnchor (spiralPoint i) = (spiralState i).1 := by
  rw [spiralPoint_eq]
  exact distToAnchor_polar _ _ (le_of_lt (spiralState_pos i).1)

lemma spiral_getElem (count : ℤ) (i : ℕ) (hi : i < count.toNat) :
    (calculateSpiderfiedPositions count)[i]? = some (spiralPoint i) := by
  rw [spiral_eq_map]
  simp [List.getElem?_range hi]

lemma circle_getElem (count : ℤ) (i : ℕ) (hi : i < count.toNat) :
    (calculateSpiderfiedPositionsCircle count)[i]? = some (circlePoint count i) := by
  rw [calculateSpiderfiedPositionsCircle]
  simp [List.getElem?_range hi]

/-- Spec-side model of the spiral rule, stated the way the claim words it:
the pair `(L i, a i)` where point `i` is `(L i * cos (a i), L i * sin (a i))`,
the angle starts at 0 and before each point increases by
`40 / current leg length + i * 0.0005`, the leg length starts at 25, and
after each point the leg length grows by `2 * pi * 5 / current angle`. -/
noncomputable def specSpiralState : ℕ → ℝ × ℝ
  | 0 => (25, 0 + 40 / 25 + 0 * 0.0005)
  | i + 1 =>
    ((specSpiralState i).1 + 2 * Real.pi * 5 / (specSpiralState i).2,
      (specSpiralState i).2 +
        40 / ((specSpiralState i).1 + 2 * Real.pi * 5 / (specSpiralState i).2) +
        ((i : ℝ) + 1) * 0.0005)

lemma specSpiralState_eq (i : ℕ) :
    specSpiralState i = ((spiralState i).1, (spiralState (i + 1)).2) := by
  induction i with
  | zero =>
    rw [specSpiralState, spiralState_succ]
    norm_num [spiralState]
  | succ n ih =>
    have hfst : (spiralState n).1 + 2 * Real.pi * 5 / (spiralState (n + 1)).2 =
        (spiralState (n + 1)).1 := by
      rw [spiralState_succ n]
      ring
    rw [specSpiralState, ih]
    simp only
    rw [hfst, spiralState_succ (n + 1)]
    refine Prod.ext rfl ?_
    simp only
    push_cast
    ring

/-! ### The claims -/

/-- C1: for every `count >= 1` and `0 <= i < count`, the `i`-th offset of
the circular layout is `(80 * cos (i * (2 * pi / count)), 80 * sin (i * (2 * pi / count)))`;
in particular `calculateSpiderfiedPositionsCircle 1 = [(80, 0)]`. -/
theorem circle_offset_formula (count : ℤ) (i : ℕ)
    (hc : 1 ≤ count) (hi : i < count.toNat) :
    (calculateSpiderfiedPositionsCircle count)[i]? =
      some (80 * Real.cos ((i : ℝ) * (2 * Real.pi / (count : ℝ))),
        80 * Real.sin ((i : ℝ) * (2 * Real.pi / (count : ℝ)))) ∧
    calculateSpiderfiedPositionsCircle 1 = [(80, 0)] := by
  constructor
  · rw [circle_getElem count i hi, circlePoint_eq]
    simp only [leavesOffset, add_zero]
    rw [mul_comm (2 * Real.pi / (count : ℝ)) (i : ℝ)]
  · have h1 : (1 : ℤ).toNat = 1 := rfl
    rw [calculateSpiderfiedPositionsCircle, h1]
    simp [List.range_succ, circlePoint_eq, leavesOffset]

/-- C3: for `count > 1`, consecutive offsets of the spiral layout have
strictly increasing distance from the anchor, hence never coincide. -/
theorem spiral_radius_strict_mono (count : ℤ) (i : ℕ) (p q : Offset)
    (hcount : 1 < count)
    (hp : (calculateSpiderfiedPositions count)[i]? = some p)
    (hq : (calculateSpiderfiedPositions count)[i + 1]? = some q) :
    distToAnchor p < distToAnchor q ∧ p ≠ q := by
  have hlen : i + 1 < (calculateSpiderfiedPositions count).length := by
    have := List.getElem?_eq_some_iff.mp hq
    exact this.1
  have hlen2 : i + 1 < count.toNat := by
    rw [spiral_eq_map] at hlen
    simpa using hlen
  rw [spiral_getElem count i (by omega)] at hp
  rw [spiral_getElem count (i + 1) hlen2] at hq
  obtain rfl : p = spiralPoint i := by injection hp with h; exact h.symm
  obtain rfl : q = spiralPoint (i + 1) := by injection hq with h; exact h.symm
  have hlt : distToAnchor (spiralPoint i) < distToAnchor (spiralPoint (i + 1)) := by
    rw [distToAnchor_spiralPoint, distToAnchor_spiralPoint]
    exact spiralState_fst_lt i
  refine ⟨hlt, fun h => ?_⟩
  rw [h] at hlt
  exact lt_irrefl _ hlt

/-- C4: for `count >= 1`, both layout functions return exactly `count`
offsets. -/
theorem layout_length_eq_count (count : ℤ) (h : 1 ≤ count) :
    ((calculateSpiderfiedPositionsCircle count).length : ℤ) = count ∧
    ((calculateSpiderfiedPositions count).length : ℤ) = count := by
  have ht : (count.toNat : ℤ) = count := Int.toNat_of_nonneg (by omega)
  constructor
  · rw [calculateSpiderfiedPositionsCircle]
    simpa using ht
  · rw [spiral_eq_map]
    simpa using ht

/-- C5: the orchestrating handler `spiderFyCluster` picks the layout purely
by comparing the leaf count against 10: counts of at most 10 get the
circular layout, counts above 10 get the spiral layout. -/
theorem selection_threshold (n : ℕ) :
    (n ≤ 10 → spiderFyClusterPositions n =
      calculateSpiderfiedPositionsCircle (n : ℤ)) ∧
    (10 < n → spiderFyClusterPositions n =
      calculateSpiderfiedPositions (n : ℤ)) := by
  constructor
  · intro h
    rw [spiderFyClusterPositions, if_neg (by omega)]
  · intro h
    rw [spiderFyClusterPositions, if_pos h]

/-- C6: for every `count < 1` (zero or negative), both layout functions
return the empty sequence; in the embedding both are total functions, so no
exception is possible. -/
theorem layout_empty_of_count_lt_one (count : ℤ) (h : count < 1) :
    calculateSpiderfiedPositionsCircle count = [] ∧
    calculateSpiderfiedPositions count = [] := by
  have h0 : count.toNat = 0 := by omega
  constructor
  · rw [calculateSpiderfiedPositionsCircle, h0]
    rfl
  · rw [calculateSpiderfiedPositions, h0]
    rfl

/-- C7: for `count >= 1`, every offset of the circular layout lies at
distance exactly 80 from the anchor. -/
theorem circle_radius_invariant (count : ℤ) (p : Offset) (hc : 1 ≤ count)
    (hp : p ∈ calculateSpiderfiedPositionsCircle count) :
    distToAnchor p = 80 := by
  rw [calculateSpiderfiedPositionsCircle] at hp
  obtain ⟨i, _, rfl⟩ := List.mem_map.mp hp
  rw [circlePoint_eq]
  exact distToAnchor_polar 80 _ (by norm_num)

/-- C9: both layout functions are deterministic: the output depends only on
`count`, so two calls with equal counts return identical sequences. -/
theorem layouts_deterministic (n m : ℤ) (h : n = m) :
    calculateSpiderfiedPositionsCircle n = calculateSpiderfiedPositionsCircle m ∧
    calculateSpiderfiedPositions n = calculateSpiderfiedPositions m := by
  subst h
  exact ⟨rfl, rfl⟩

/-- C2: for every `count >= 1` and `0 <= i < count`, the spiral layout's
`i`-th offset is `(L i * cos (a i), L i * sin (a i))` where the angle and
leg length follow the claimed recurrence `specSpiralState`: the angle
starts at 0 and before each point increases by
`40 / current leg length + i * 0.0005`, the leg length starts at 25, and
after each point the leg length grows by `2 * pi * 5 / current angle`. -/
theorem spiral_offset_formula (count : ℤ) (i : ℕ)
    (hc : 1 ≤ count) (hi : i < count.toNat) :
    (calculateSpiderfiedPositions count)[i]? =
      some ((specSpiralState i).1 * Real.cos ((specSpiralState i).2),
        (specSpiralState i).1 * Real.sin ((specSpiralState i).2)) := by
  rw [spiral_getElem count i hi, spiralPoint_eq, specSpiralState_eq]
  simp [leavesOffset]

/-- C8: for `count >= 2` and distinct indices `i`, `j` below `count`, the
circular layout's offsets at `i` and `j` are at non-zero Euclidean distance
from each other; no two leaves share the same angle. -/
theorem circle_offsets_distinct (count : ℤ) (i j : ℕ) (p q : Offset)
    (hc : 2 ≤ count) (hij : i ≠ j)
    (hp : (calculateSpiderfiedPositionsCircle count)[i]? = some p)
    (hq : (calculateSpiderfiedPositionsCircle count)[j]? = some q) :
    distBetween p q ≠ 0 := by
  have hi : i < count.toNat := by
    have := (List.getElem?_eq_some_iff.mp hp).1
    simpa [calculateSpiderfiedPositionsCircle] using this
  have hj : j < count.toNat := by
    have := (List.getElem?_eq_some_iff.mp hq).1
    simpa [calculateSpiderfiedPositionsCircle] using this
  rw [circle_getElem count i hi] at hp
  rw [circle_getElem count j hj] at hq
  obtain rfl : p = circlePoint count i := by injection hp with h; exact h.symm
  obtain rfl : q = circlePoint count j := by injection hq with h; exact h.symm
  intro hzero
  rw [circlePoint_eq count i, circlePoint_eq count j, distBetween] at hzero
  simp only [leavesOffset, add_zero] at hzero
  set x : ℝ := 2 * Real.pi / (count : ℝ) * (i : ℝ) with hx
  set y : ℝ := 2 * Real.pi / (count : ℝ) * (j : ℝ) with hy
  have hsum : (80 * Real.cos x - 80 * Real.cos y) ^ 2 +
      (80 * Real.sin x - 80 * Real.sin y) ^ 2 = 0 := by
    have h0 : 0 ≤ (80 * Real.cos x - 80 * Real.cos y) ^ 2 +
        (80 * Real.sin x - 80 * Real.sin y) ^ 2 := by positivity
    exact (Real.sqrt_eq_zero h0).mp hzero
  have hcos : Real.cos x = Real.cos y := by
    have hs1 : (80 * Real.cos x - 80 * Real.cos y) ^ 2 = 0 := by
      nlinarith [sq_nonneg (80 * Real.sin x - 80 * Real.sin y)]
    have := (pow_eq_zero_iff two_ne_zero).mp hs1
    linarith
  have hsin : Real.sin x = Real.sin y := by
    have hs2 : (80 * Real.sin x - 80 * Real.sin y) ^ 2 = 0 := by
      nlinarith [sq_nonneg (80 * Real.cos x - 80 * Real.cos y)]
    have := (pow_eq_zero_iff two_ne_zero).mp hs2
    linarith
  have hang : (x : Real.Angle) = (y : Real.Angle) :=
    Real.Angle.cos_sin_inj hcos hsin
  obtain ⟨k, hk⟩ := Real.Angle.angle_eq_iff_two_pi_dvd_sub.mp hang
  rw [hx, hy] at hk
  have hc0 : ((count : ℤ) : ℝ) ≠ 0 := by
    have h2 : (2 : ℝ) ≤ (count : ℝ) := by exact_mod_cast hc
    linarith
  have h2pi : (2 * Real.pi) ≠ 0 := by
    have := Real.pi_pos
    linarith
  have hdiff : 2 * Real.pi / (count : ℝ) * ((i : ℝ) - (j : ℝ)) =
      2 * Real.pi * (k : ℝ) := by
    rw [mul_sub]
    exact hk
  rw [div_mul_eq_mul_div, div_eq_iff hc0] at hdiff
  have key : (i : ℝ) - (j : ℝ) = (k : ℝ) * (count : ℝ) := by
    apply mul_left_cancel₀ h2pi
    rw [hdiff]
    ring
  have keyZ : (i : ℤ) - (j : ℤ) = k * count := by exact_mod_cast key
  have hi2 : (i : ℤ) < count := by omega
  have hj2 : (j : ℤ) < count := by omega
  have hi0 : (0 : ℤ) ≤ (i : ℤ) := Int.natCast_nonneg i
  have hj0 : (0 : ℤ) ≤ (j : ℤ) := Int.natCast_nonneg j
  rcases lt_trichotomy k 0 with hk0 | hk0 | hk0
  · have hbound : k * count ≤ -1 * count :=
      mul_le_mul_of_nonneg_right (by omega) (by omega)
    linarith
  · subst hk0
    simp at keyZ
    omega
  · have hbound : 1 * count ≤ k * count :=
      mul_le_mul_of_nonneg_right (by omega) (by omega)
    linarith

/-- C10: the spiral layout is stable under extension of the count: for
`0 <= n <= m`, the first `n` offsets for count `m` are exactly the output
for count `n` (the loop state never reads the total count). -/
theorem spiral_take_eq (n m : ℤ) (h0 : 0 ≤ n) (hnm : n ≤ m) :
    (calculateSpiderfiedPositions m).take n.toNat =
      calculateSpiderfiedPositions n := by
  rw [spiral_eq_map, spiral_eq_map, ← List.map_take, List.take_range,
    min_eq_left (by omega : n.toNat ≤ m.toNat)]

/-! ### Concrete instantiations of the claims -/

/-- Instantiation of C1 at `count = 3`, `i = 1`. -/
theorem circle_offset_formula_check :
    (calculateSpiderfiedPositionsCircle 3)[1]? =
      some (80 * Real.cos (((1 : ℕ) : ℝ) * (2 * Real.pi / (((3 : ℤ)) : ℝ))),
        80 * Real.sin (((1 : ℕ) : ℝ) * (2 * Real.pi / (((3 : ℤ)) : ℝ)))) ∧
    calculateSpiderfiedPositionsCircle 1 = [(80, 0)] :=
  circle_offset_formula 3 1 (by norm_num) (by decide)

/-- Instantiation of C2 at `count = 3`, `i = 1`. -/
theorem spiral_offset_formula_check :
    (calculateSpiderfiedPositions 3)[1]? =
      some ((specSpiralState 1).1 * Real.cos ((specSpiralState 1).2),
        (specSpiralState 1).1 * Real.sin ((specSpiralState 1).2)) :=
  spiral_offset_formula 3 1 (by norm_num) (by decide)

/-- Instantiation of C3 at `count = 2`, `i = 0`. -/
theorem spiral_radius_strict_mono_check :
    distToAnchor (spiralPoint 0) < distToAnchor (spiralPoint 1) ∧
      spiralPoint 0 ≠ spiralPoint 1 :=
  spiral_radius_strict_mono 2 0 (spiralPoint 0) (spiralPoint 1) (by norm_num)
    (spiral_getElem 2 0 (by decide)) (spiral_getElem 2 1 (by decide))

/-- Instantiation of C4 at `count = 4`. -/
theorem layout_length_eq_count_check :
    ((calculateSpiderfiedPositionsCircle 4).length : ℤ) = 4 ∧
    ((calculateSpiderfiedPositions 4).length : ℤ) = 4 :=
  layout_length_eq_count 4 (by norm_num)

/-- Instantiation of C5 at leaf counts 5 and 15. -/
theorem selection_threshold_check :
    spiderFyClusterPositions 5 =
      calculateSpiderfiedPositionsCircle (((5 : ℕ)) : ℤ) ∧
    spiderFyClusterPositions 15 =
      calculateSpiderfiedPositions (((15 : ℕ)) : ℤ) :=
  ⟨(selection_threshold 5).1 (by norm_num), (selection_threshold 15).2 (by norm_num)⟩

/-- Instantiation of C6 at `count = -3`. -/
theorem layout_empty_of_count_lt_one_check :
    calculateSpiderfiedPositionsCircle (-3) = [] ∧
    calculateSpiderfiedPositions (-3) = [] :=
  layout_empty_of_count_lt_one (-3) (by norm_num)

/-- Instantiation of C7 at `count = 2`, first offset. -/
theorem circle_radius_invariant_check :
    distToAnchor (circlePoint 2 0) = 80 :=
  circle_radius_invariant 2 (circlePoint 2 0) (by norm_num)
    (by rw [calculateSpiderfiedPositionsCircle]
        exact List.mem_map.mpr ⟨0, by decide, rfl⟩)

/-- Instantiation of C8 at `count = 2`, indices 0 and 1. -/
theorem circle_offsets_distinct_check :
    distBetween (circlePoint 2 0) (circlePoint 2 1) ≠ 0 :=
  circle_offsets_distinct 2 0 1 (circlePoint 2 0) (circlePoint 2 1)
    (by norm_num) (by norm_num)
    (circle_getElem 2 0 (by decide)) (circle_getElem 2 1 (by decide))

/-- Instantiation of C9 at `count = 7`. -/
theorem layouts_deterministic_check :
    calculateSpiderfiedPositionsCircle 7 = calculateSpiderfiedPositionsCircle 7 ∧
    calculateSpiderfiedPositions 7 = calculateSpiderfiedPositions 7 :=
  layouts_deterministic 7 7 rfl

/-- Instantiation of C10 at `n = 2`, `m = 5`. -/
theorem spiral_take_eq_check :
    (calculateSpiderfiedPositions 5).take (2 : ℤ).toNat =
      calculateSpiderfiedPositions 2 :=
  spiral_take_eq 2 5 (by norm_num) (by norm_num)

end Spiderfy
